import Mathlib

/-!
Shallow embedding of the BioValue-AI durable-orchestration core, translated from
the Go sources:

* `internal/activity/types.go` — the artifact record types;
* `internal/workflow/saga.go` — the Saga compensation stack;
* the per-pipeline subflow file (`PipelineAnalysisWorkflow`, `getDefaultPOS`) and the
  main workflow file (`BioValueWorkflow`, `aggregateClinicalResults`,
  `aggregateMarketResults`, the `progress` query handler);
* `internal/workflow/valuation.go` — `ValuationWorkflow`;
* `internal/activity/activities.go` — the cache-check / LLM-call / re-cache structure of
  the cacheable activities and `ValuationActuaryActivity`;
* the `ClassifyError` implementation from the repository's orchestration design document
  (`pkg/errors/classify.go` code block).

Modelling conventions:

* Go `float64` fields are modelled as exact rationals (`ℚ`); the claims proved about them
  are structural (which values flow where, which fold computes a total), not about IEEE-754
  rounding.
* `time.Time` fields are modelled as `Nat` timestamps.
* Temporal activity / child-workflow invocations are non-deterministic collaborators; a
  workflow function takes the outcome of each invocation (after the runtime exhausted its
  retries) as an explicit `Except GoError _` parameter.
* A Go `map[string]string` is modelled as a key-unique association list with an
  insert-or-replace update (`mapSet`) and lookup (`mapGet`).
* The `human-intervention` signal listener and the pause flag only gate progress between
  phases and never change the data flow of an unpaused run; the embedding models the
  unpaused executions, which is what every claim below is about.
-/

namespace BioValue

/-- Go `error` values that the orchestration layer distinguishes.  The named
constructors are the sentinel errors matched by `errors.Is` in `ClassifyError`;
`other` covers every remaining error (the classifier's `default` branch). -/
inductive GoError where
  | deadlineExceeded
  | rateLimited
  | validationFailed
  | hallucination
  | configInvalid
  | authFailed
  | other (msg : String)
deriving DecidableEq, Repr

/-- `Except.isOk`-style discriminator kept local to the development. -/
def exceptOk {α : Type} (e : Except GoError α) : Bool :=
  match e with
  | .ok _ => true
  | .error _ => false

/-- The payload of a successful `Except`, if any. -/
def exceptValue {α : Type} (e : Except GoError α) : Option α :=
  match e with
  | .ok a => some a
  | .error _ => none

instance {ε α : Type} [DecidableEq ε] [DecidableEq α] : DecidableEq (Except ε α) := fun a b =>
  match a, b with
  | .error e₁, .error e₂ =>
      if h : e₁ = e₂ then isTrue (h ▸ rfl) else isFalse fun c => h (Except.error.inj c)
  | .ok a₁, .ok a₂ =>
      if h : a₁ = a₂ then isTrue (h ▸ rfl) else isFalse fun c => h (Except.ok.inj c)
  | .error _, .ok _ => isFalse fun c => Except.noConfusion c
  | .ok _, .error _ => isFalse fun c => Except.noConfusion c

/-! ## Artifact record types (from `internal/activity/types.go`) -/

/-- `FinancialMetrics` from types.go. -/
structure FinancialMetrics where
  CashOnHand : ℚ
  AnnualBurnRate : ℚ
  CashRunwayMonths : ℚ
  RAndDExpenses : ℚ
  OperatingCashFlow : ℚ
deriving DecidableEq, Repr

/-- `FinancialResult` from types.go. -/
structure FinancialResult where
  Ticker : String
  Metrics : FinancialMetrics
  HealthScore : Int
  RiskWarning : String
  SourceURL : String
  UpdatedAt : Nat
deriving DecidableEq, Repr

/-- `DrugPipeline` from types.go. -/
structure DrugPipeline where
  DrugName : String
  Target : String
  Indication : String
  Phase : String
  Modality : String
  NCTID : String
deriving DecidableEq, Repr

/-- `PipelineResult` from types.go. -/
structure PipelineResult where
  Ticker : String
  Pipelines : List DrugPipeline
  DataAsOf : Nat
deriving DecidableEq, Repr

/-- `ClinicalAssessment` from types.go. -/
structure ClinicalAssessment where
  DrugName : String
  Target : String
  Indication : String
  Phase : String
  POSScore : ℚ
  CompetitiveLandscape : String
  ClinicalAdvantage : String
  Rating : String
  KeyCompetitors : List String
  DataSources : List String
deriving DecidableEq, Repr

/-- `ClinicalResult` from types.go. -/
structure ClinicalResult where
  Ticker : String
  Assessments : List ClinicalAssessment
  UpdatedAt : Nat
deriving DecidableEq, Repr

/-- `MarketForecast` from types.go. -/
structure MarketForecast where
  TAM : ℚ
  PenetrationRate : ℚ
  PeakSales : ℚ
  Currency : String
deriving DecidableEq, Repr

/-- `BDForecast` from types.go. -/
structure BDForecast where
  UpfrontPotential : ℚ
  MilestonePotential : ℚ
  RoyaltyRate : ℚ
  TargetRegion : String
  ComparableDeals : List String
deriving DecidableEq, Repr

/-- `MarketAssessment` from types.go. -/
structure MarketAssessment where
  DrugName : String
  Target : String
  Indication : String
  Domestic : MarketForecast
  BDOutlook : BDForecast
  RiskAdjustedRevenue : ℚ
  Assumptions : List String
deriving DecidableEq, Repr

/-- `MarketResult` from types.go. -/
structure MarketResult where
  Ticker : String
  Assessments : List MarketAssessment
  TotalRiskAdjustedRevenue : ℚ
  UpdatedAt : Nat
deriving DecidableEq, Repr

/-- `PipelineAnalysisResult` from types.go: the output of one per-pipeline subflow. -/
structure PipelineAnalysisResult where
  Pipeline : DrugPipeline
  Clinical : ClinicalAssessment
  Market : MarketAssessment
deriving DecidableEq, Repr

/-- `ValuationScenario` from types.go. -/
structure ValuationScenario where
  Value1Y : ℚ
  Value3Y : ℚ
  Value5Y : ℚ
  Value10Y : ℚ
  Rationale : String
deriving DecidableEq, Repr

/-- `ValuationAssumptions` from types.go. -/
structure ValuationAssumptions where
  WACC : ℚ
  TerminalGrowth : ℚ
  AvgPOS : ℚ
  Methodology : String
deriving DecidableEq, Repr

/-- `ValuationResult` from types.go. -/
structure ValuationResult where
  BullCase : ValuationScenario
  BaseCase : ValuationScenario
  BearCase : ValuationScenario
  Assumptions : ValuationAssumptions
deriving DecidableEq, Repr

/-- `ReportResult` from types.go. -/
structure ReportResult where
  Ticker : String
  MarkdownContent : String
  KeyRisks : List String
  Recommendation : String
  GeneratedAt : Nat
deriving DecidableEq, Repr

/-! ## Saga compensation (from `internal/workflow/saga.go`) -/

/-- `CompensationStep` from saga.go.  The Go `Fn func(ctx) error` is modelled by the
result it produces when the compensation is invoked. -/
structure CompensationStep where
  Name : String
  Fn : Except GoError Unit
deriving DecidableEq, Repr

/-- `SagaCompensation` from saga.go. -/
structure SagaCompensation where
  steps : List CompensationStep
deriving DecidableEq, Repr

/-- `NewSagaCompensation` from saga.go. -/
def NewSagaCompensation : SagaCompensation := { steps := [] }

/-- `(*SagaCompensation).AddCompensation` from saga.go: inserts at the head of the
step list so that execution is LIFO. -/
def SagaCompensation.AddCompensation (s : SagaCompensation) (name : String)
    (fn : Except GoError Unit) : SagaCompensation :=
  { steps := { Name := name, Fn := fn } :: s.steps }

/-- `(*SagaCompensation).Len` from saga.go. -/
def SagaCompensation.Len (s : SagaCompensation) : Nat := s.steps.length

/-- Observable events of a `Execute` run: invoking a compensation function, and the
`NotifyCompensationFailure` activity fired when a step's function returns an error. -/
inductive SagaEvent where
  | run (name : String)
  | notifyFailure (name : String) (msg : GoError)
deriving DecidableEq, Repr

/-- `(*SagaCompensation).Execute` from saga.go: runs every step in list order; a step
whose function fails triggers the `NotifyCompensationFailure` activity and execution
continues with the remaining steps.  The Go function always returns `nil`, so the
model returns only the event trace. -/
def SagaCompensation.Execute (s : SagaCompensation) : List SagaEvent :=
  s.steps.flatMap fun step =>
    SagaEvent.run step.Name ::
      (match step.Fn with
       | .ok _ => []
       | .error e => [SagaEvent.notifyFailure step.Name e])

/-- The names of the compensation functions invoked by an `Execute` trace, in order. -/
def runOrder (trace : List SagaEvent) : List String :=
  trace.filterMap fun e =>
    match e with
    | .run n => some n
    | .notifyFailure _ _ => none

/-- The names of the steps for which `NotifyCompensationFailure` fired, in order. -/
def notifyOrder (trace : List SagaEvent) : List String :=
  trace.filterMap fun e =>
    match e with
    | .run _ => none
    | .notifyFailure n _ => some n

/-! ## Per-pipeline subflow (`PipelineAnalysisWorkflow`, `getDefaultPOS`) -/

/-- `PipelineAnalysisInput` from the subflow file. -/
structure PipelineAnalysisInput where
  Ticker : String
  Pipeline : DrugPipeline
deriving DecidableEq, Repr

/-- `MarketStrategistInput` from types.go (the market activity receives the clinical
assessment of the same pipeline). -/
structure MarketStrategistInput where
  Ticker : String
  Pipeline : DrugPipeline
  Clinical : ClinicalAssessment
deriving DecidableEq, Repr

/-- `getDefaultPOS` from the subflow file: the fixed phase → default-POS table. -/
def getDefaultPOS (phase : String) : ℚ :=
  match phase with
  | "Preclinical" => 0.05
  | "Phase1" => 0.10
  | "Phase1_2" => 0.15
  | "Phase2" => 0.30
  | "Phase2_3" => 0.50
  | "Phase3" => 0.60
  | "Approved" => 1.0
  | _ => 0.20

/-- The default `ClinicalAssessment` substituted when the clinical activity fails
(subflow file, clinical error branch).  Fields not assigned in the Go literal carry
the Go zero values. -/
def defaultClinicalAssessment (p : DrugPipeline) : ClinicalAssessment :=
  { DrugName := p.DrugName
    Target := p.Target
    Indication := p.Indication
    Phase := p.Phase
    POSScore := getDefaultPOS p.Phase
    CompetitiveLandscape := "Unable to assess"
    ClinicalAdvantage := "Unable to assess"
    Rating := "Unknown"
    KeyCompetitors := []
    DataSources := [] }

/-- The default `MarketAssessment` substituted when the market activity fails
(subflow file, market error branch).  Fields not assigned in the Go literal carry
the Go zero values. -/
def defaultMarketAssessment (p : DrugPipeline) : MarketAssessment :=
  { DrugName := p.DrugName
    Target := p.Target
    Indication := p.Indication
    Domestic := { TAM := 0, PenetrationRate := 0, PeakSales := 0, Currency := "USD" }
    BDOutlook := { UpfrontPotential := 0, MilestonePotential := 0, RoyaltyRate := 0,
                   TargetRegion := "Unknown", ComparableDeals := [] }
    RiskAdjustedRevenue := 0
    Assumptions := [] }

/-- What one run of the subflow did: its returned `PipelineAnalysisResult` and the
input it passed to the `MarketStrategistActivity` invocation. -/
structure PipelineAnalysisTrace where
  result : PipelineAnalysisResult
  marketInput : MarketStrategistInput
deriving DecidableEq, Repr

/-- `PipelineAnalysisWorkflow` from the subflow file.  `clinicalOutcome` is the result
of the `ClinicalAssessorActivity` invocation after retries, `marketOutcome` the result
of the `MarketStrategistActivity` invocation as a function of the clinical assessment
passed to it.  The Go function computes the clinical result (falling back to the
default on failure), then always invokes the market activity with that clinical
result (falling back to the zeroed default on failure), and returns `(result, nil)`. -/
def PipelineAnalysisWorkflow (input : PipelineAnalysisInput)
    (clinicalOutcome : Except GoError ClinicalAssessment)
    (marketOutcome : ClinicalAssessment → Except GoError MarketAssessment) :
    Except GoError PipelineAnalysisTrace :=
  let clinicalResult : ClinicalAssessment :=
    match clinicalOutcome with
    | .ok r => r
    | .error _ => defaultClinicalAssessment input.Pipeline
  let marketResult : MarketAssessment :=
    match marketOutcome clinicalResult with
    | .ok r => r
    | .error _ => defaultMarketAssessment input.Pipeline
  .ok { result := { Pipeline := input.Pipeline, Clinical := clinicalResult,
                    Market := marketResult }
        marketInput := { Ticker := input.Ticker, Pipeline := input.Pipeline,
                         Clinical := clinicalResult } }

/-! ## Main workflow (`BioValueWorkflow` and helpers) -/

/-- Insert-or-replace update of a `map[string]string` modelled as a key-unique
association list. -/
def mapSet (m : List (String × String)) (k v : String) : List (String × String) :=
  match m with
  | [] => [(k, v)]
  | (k', v') :: rest => if k' = k then (k, v) :: rest else (k', v') :: mapSet rest k v

/-- Lookup in the association-list model of a Go map. -/
def mapGet (m : List (String × String)) (k : String) : Option String :=
  match m with
  | [] => none
  | (k', v') :: rest => if k' = k then some v' else mapGet rest k

/-- Fold of `mapSet` over a list of keys, all bound to the same value — the shape of
the two initialisation loops over `pipelineResult.Pipelines`. -/
def setAll (m : List (String × String)) (keys : List String) (v : String) :
    List (String × String) :=
  keys.foldl (fun m k => mapSet m k v) m

/-- Number of drugs whose progress entry is `"failed"`. -/
def countFailed (m : List (String × String)) : Nat :=
  (m.filter fun kv => kv.2 = "failed").length

/-- The progress-tracking state kept in the `BioValueWorkflow` closure:
`currentAgent`, `completedSteps` and the per-drug `pipelineProgress` map. -/
structure WorkflowState where
  currentAgent : String
  completedSteps : List String
  pipelineProgress : List (String × String)
deriving DecidableEq, Repr

/-- `ProgressInfo` from the main workflow file (the `progress` query payload). -/
structure ProgressInfo where
  CurrentAgent : String
  CompletedSteps : List String
  TotalSteps : Nat
  Progress : ℚ
  PipelineProgress : List (String × String)
deriving DecidableEq, Repr

/-- The `progress` query handler registered by `BioValueWorkflow`: a closure over the
tracking state that computes `totalSteps = 4 + len(pipelineProgress)*2` and the
percentage, and returns the state unchanged (the handler only reads the closed-over
variables). -/
def progressQuery (s : WorkflowState) : ProgressInfo × WorkflowState :=
  let totalSteps := 4 + s.pipelineProgress.length * 2
  ({ CurrentAgent := s.currentAgent
     CompletedSteps := s.completedSteps
     TotalSteps := totalSteps
     Progress := (s.completedSteps.length : ℚ) / (totalSteps : ℚ) * 100
     PipelineProgress := s.pipelineProgress }, s)

/-- `aggregateClinicalResults` from the main workflow file: collects each analysis's
clinical assessment (the Go append loop over `analyses`). -/
def aggregateClinicalResults (ticker : String) (analyses : List PipelineAnalysisResult) :
    ClinicalResult :=
  { Ticker := ticker
    Assessments := analyses.map (·.Clinical)
    UpdatedAt := 0 }

/-- `aggregateMarketResults` from the main workflow file: collects each analysis's
market assessment and accumulates `totalRevenue += a.Market.RiskAdjustedRevenue`
(a left fold starting from `0.0`, in collection order). -/
def aggregateMarketResults (ticker : String) (analyses : List PipelineAnalysisResult) :
    MarketResult :=
  { Ticker := ticker
    Assessments := analyses.map (·.Market)
    TotalRiskAdjustedRevenue :=
      analyses.foldl (fun acc a => acc + a.Market.RiskAdjustedRevenue) 0
    UpdatedAt := 0 }

/-- One resolved per-drug child workflow future, in event-arrival order: the drug name
captured by the selector callback and the result of `f.Get`. -/
abbrev Arrival := String × Except GoError PipelineAnalysisResult

/-- The selector callback of the fan-out collection loop: on error, mark the drug
`"failed"`; on success, append the result, mark the drug `"completed"` and append a
`PipelineAnalysis:<drug>` completed step. -/
def collectArrival (acc : WorkflowState × List PipelineAnalysisResult) (a : Arrival) :
    WorkflowState × List PipelineAnalysisResult :=
  match a.2 with
  | .error _ =>
      ({ acc.1 with pipelineProgress := mapSet acc.1.pipelineProgress a.1 "failed" },
       acc.2)
  | .ok r =>
      ({ acc.1 with
          pipelineProgress := mapSet acc.1.pipelineProgress a.1 "completed"
          completedSteps := acc.1.completedSteps ++ ["PipelineAnalysis:" ++ a.1] },
       acc.2 ++ [r])

/-- The fan-out phase of `BioValueWorkflow`: set `currentAgent`, initialise every
drug's progress to `"pending"`, then to `"in_progress"` while launching its child
workflow, then collect all child results with the selector loop. -/
def fanOutPhase (pipelines : List DrugPipeline) (arrivals : List Arrival)
    (s : WorkflowState) : WorkflowState × List PipelineAnalysisResult :=
  let names := pipelines.map (·.DrugName)
  let m := setAll (setAll s.pipelineProgress names "pending") names "in_progress"
  arrivals.foldl collectArrival
    ({ s with currentAgent := "PipelineAnalysis", pipelineProgress := m }, [])

/-! ## Error classifier (`ClassifyError` from the design document's
`pkg/errors/classify.go` code block) -/

/-- `ClassifiedError` from classify.go.  `ErrorLevel` is a Go `int` (`iota + 1`),
modelled as `Nat`; `Metadata` as a key/value list. -/
structure ClassifiedError where
  Level : Nat
  Code : String
  Retryable : Bool
  MaxRetries : Nat
  Metadata : List (String × String)
deriving DecidableEq, Repr

/-- `L1Recoverable = iota + 1`. -/
def L1Recoverable : Nat := 1

/-- `L2Intervention`. -/
def L2Intervention : Nat := 2

/-- `L3Fatal`. -/
def L3Fatal : Nat := 3

/-- `ClassifyError` from classify.go: maps a raised error to its severity level and
retry policy; the `errors.Is` chain is modelled by matching on the sentinel
constructor, with `other` hitting the `default` branch. -/
def ClassifyError (e : GoError) : ClassifiedError :=
  match e with
  | .deadlineExceeded =>
      { Level := L1Recoverable, Code := "TIMEOUT", Retryable := true, MaxRetries := 3,
        Metadata := [] }
  | .rateLimited =>
      { Level := L1Recoverable, Code := "RATE_LIMITED", Retryable := true, MaxRetries := 5,
        Metadata := [("backoff", "exponential")] }
  | .validationFailed =>
      { Level := L2Intervention, Code := "VALIDATION_FAILED", Retryable := false,
        MaxRetries := 0, Metadata := [] }
  | .hallucination =>
      { Level := L2Intervention, Code := "LLM_HALLUCINATION", Retryable := true,
        MaxRetries := 2, Metadata := [("require_human_review", "true")] }
  | .configInvalid =>
      { Level := L3Fatal, Code := "FATAL_CONFIG", Retryable := false, MaxRetries := 0,
        Metadata := [] }
  | .authFailed =>
      { Level := L3Fatal, Code := "FATAL_CONFIG", Retryable := false, MaxRetries := 0,
        Metadata := [] }
  | .other _ =>
      { Level := L1Recoverable, Code := "UNKNOWN", Retryable := true, MaxRetries := 1,
        Metadata := [] }

/-! ## Full main workflow -/

/-- `WorkflowInput` from the main workflow file. -/
structure WorkflowInput where
  Ticker : String
  ReportPath : String
  Options : List (String × String)
deriving DecidableEq, Repr

/-- `WorkflowOutput` from the main workflow file (Go pointer fields become `Option`). -/
structure WorkflowOutput where
  Ticker : String
  Financial : Option FinancialResult
  Pipeline : Option PipelineResult
  PipelineAnalyses : List PipelineAnalysisResult
  Clinical : Option ClinicalResult
  Market : Option MarketResult
  Valuation : Option ValuationResult
  Report : Option ReportResult
  TraceID : String
  CompletedAt : Nat
deriving DecidableEq, Repr

/-- Go zero value of `FinancialResult` (the `var financialResult` local before any
assignment). -/
def zeroFinancialResult : FinancialResult :=
  { Ticker := "", Metrics := ⟨0, 0, 0, 0, 0⟩, HealthScore := 0, RiskWarning := "",
    SourceURL := "", UpdatedAt := 0 }

/-- Go zero value of `PipelineResult` (the `var pipelineResult` local before any
assignment). -/
def zeroPipelineResult : PipelineResult :=
  { Ticker := "", Pipelines := [], DataAsOf := 0 }

/-- Outcomes of the collaborator invocations of one `BioValueWorkflow` run, after the
activity runtime exhausted retries.  `phaseAFinancialFirst` records which of the two
parallel phase-A futures the selector consumed first; `compensationOutcome` gives the
result each named compensation function produces if the Saga is executed. -/
structure WorkflowEnv where
  phaseAFinancialFirst : Bool
  financialOutcome : Except GoError FinancialResult
  pipelineOutcome : Except GoError PipelineResult
  compensationOutcome : String → Except GoError Unit
  arrivals : List Arrival
  valuationOutcome : Except GoError ValuationResult
  reportOutcome : Except GoError ReportResult

/-- The mutable locals of `BioValueWorkflow` threaded through its phases. -/
structure MainState where
  s : WorkflowState
  saga : SagaCompensation
  output : WorkflowOutput
  financialResult : FinancialResult
  pipelineResult : PipelineResult

/-- The selector callback for the `financialFuture` in phase A: on success append the
completed step, store the result in the output, and push the `"financial"`
compensation; on failure only log. -/
def processFinancial (env : WorkflowEnv) (st : MainState) : MainState :=
  match env.financialOutcome with
  | .error _ => st
  | .ok r =>
      { st with
          s := { st.s with completedSteps := st.s.completedSteps ++ ["FinancialAuditor"] }
          saga := st.saga.AddCompensation "financial" (env.compensationOutcome "financial")
          output := { st.output with Financial := some r }
          financialResult := r }

/-- The selector callback for the `pipelineFuture` in phase A: symmetric to
`processFinancial`, pushing the `"pipeline"` compensation. -/
def processPipeline (env : WorkflowEnv) (st : MainState) : MainState :=
  match env.pipelineOutcome with
  | .error _ => st
  | .ok r =>
      { st with
          s := { st.s with completedSteps := st.s.completedSteps ++ ["PipelineScout"] }
          saga := st.saga.AddCompensation "pipeline" (env.compensationOutcome "pipeline")
          output := { st.output with Pipeline := some r }
          pipelineResult := r }

/-- Phase A of `BioValueWorkflow`: initial state, query-handler registration, then the
two parallel activities consumed by the selector in arrival order. -/
def mainPhaseA (input : WorkflowInput) (env : WorkflowEnv) (runID : String) : MainState :=
  let st0 : MainState :=
    { s := { currentAgent := "FinancialAuditor,PipelineScout", completedSteps := [],
             pipelineProgress := [] }
      saga := NewSagaCompensation
      output := { Ticker := input.Ticker, Financial := none, Pipeline := none,
                  PipelineAnalyses := [], Clinical := none, Market := none,
                  Valuation := none, Report := none, TraceID := runID, CompletedAt := 0 }
      financialResult := zeroFinancialResult
      pipelineResult := zeroPipelineResult }
  if env.phaseAFinancialFirst then processPipeline env (processFinancial env st0)
  else processFinancial env (processPipeline env st0)

/-- `ValuationWorkflow` from `internal/workflow/valuation.go`: a single activity call
whose result (or error) is passed through unchanged. -/
def ValuationWorkflow (activityOutcome : Except GoError ValuationResult) :
    Except GoError ValuationResult :=
  match activityOutcome with
  | .error e => .error e
  | .ok r => .ok r

/-- Everything observable about one `BioValueWorkflow` run: the Go return value
(`(*WorkflowOutput, error)` as `Except`), the final tracking state, and the Saga
trace (empty unless `saga.Execute` ran). -/
structure WorkflowRun where
  result : Except GoError WorkflowOutput
  state : WorkflowState
  sagaTrace : List SagaEvent

/-- The report phase (step 5) and return of `BioValueWorkflow`: report failure is
tolerated with a warning; on success the step is appended and the report stored. -/
def reportPhase (env : WorkflowEnv) (now : Nat) (s : WorkflowState)
    (output : WorkflowOutput) : WorkflowRun :=
  let s := { s with currentAgent := "ReportGenerator" }
  match env.reportOutcome with
  | .error _ =>
      { result := .ok { output with CompletedAt := now }, state := s, sagaTrace := [] }
  | .ok r =>
      { result := .ok { output with Report := some r, CompletedAt := now }
        state := { s with completedSteps := s.completedSteps ++ ["ReportGenerator"] }
        sagaTrace := [] }

/-- `BioValueWorkflow` from the main workflow file, as a function of the collaborator
outcomes: phase A in parallel, per-drug fan-out over the discovered pipelines,
clinical and market aggregation, the valuation child workflow (aborting through the
Saga when its error classifies at `L2Intervention` or above), and the best-effort
report phase.  The returned error on abort is the `fmt.Errorf`-wrapped valuation
error, modelled by its `%w` cause. -/
def BioValueWorkflow (input : WorkflowInput) (env : WorkflowEnv) (runID : String)
    (now : Nat) : WorkflowRun :=
  let st1 := mainPhaseA input env runID
  let fanOut := fanOutPhase st1.pipelineResult.Pipelines env.arrivals st1.s
  let s2 := fanOut.1
  let analyses := fanOut.2
  let clinicalResult := aggregateClinicalResults input.Ticker analyses
  let s3 := { s2 with completedSteps := s2.completedSteps ++ ["ClinicalAggregation"] }
  let marketResult := aggregateMarketResults input.Ticker analyses
  let s4 := { s3 with completedSteps := s3.completedSteps ++ ["MarketAggregation"] }
  let output :=
    { st1.output with
        PipelineAnalyses := analyses
        Clinical := some clinicalResult
        Market := some marketResult }
  let s5 := { s4 with currentAgent := "ValuationActuary" }
  match ValuationWorkflow env.valuationOutcome with
  | .error e =>
      if L2Intervention ≤ (ClassifyError e).Level then
        { result := .error e, state := s5, sagaTrace := st1.saga.Execute }
      else
        reportPhase env now s5 output
  | .ok v =>
      reportPhase env now
        { s5 with completedSteps := s5.completedSteps ++ ["ValuationActuary"] }
        { output with Valuation := some v }

/-! ## Activities (from `internal/activity/activities.go`)

Each cacheable activity is modelled as a function of: the result of the cache `Get`
for its key, the deserialiser for its result type (Go `json.Unmarshal`, applied both
to the cached string and to the LLM answer), and the LLM collaborator's final answer.
The run records the returned value and the cache `Set` performed, if any. -/

/-- The observable outcome of one activity execution: its return value and the cache
write (`key`, stored artifact) it performed, if any. -/
structure ActivityRun (α : Type) where
  result : Except GoError α
  cacheWrite : Option (String × α)
deriving DecidableEq, Repr

/-- `FinancialAuditorInput` from types.go. -/
structure FinancialAuditorInput where
  Ticker : String
  ReportPath : String
deriving DecidableEq, Repr

/-- `ClinicalAssessorInput` from types.go. -/
structure ClinicalAssessorInput where
  Ticker : String
  Pipeline : DrugPipeline
deriving DecidableEq, Repr

/-- `ValuationActuaryInput` from types.go. -/
structure ValuationActuaryInput where
  Ticker : String
  Financial : Option FinancialResult
  Clinical : Option ClinicalResult
  Market : Option MarketResult
deriving DecidableEq, Repr

/-- The cache key `company:{ticker}:financials` of the financial auditor. -/
def financialCacheKey (ticker : String) : String :=
  "company:" ++ ticker ++ ":financials"

/-- The cache key `company:{ticker}:pipeline:{drug}:clinical` of the clinical
assessor. -/
def clinicalCacheKey (ticker drug : String) : String :=
  "company:" ++ ticker ++ ":pipeline:" ++ drug ++ ":clinical"

/-- The cache-miss tail of `FinancialAuditorActivity` (heartbeat, LLM call, parse,
metadata stamping, cache `Set`): the Go code falls through to this after every
unsuccessful cache path. -/
def FinancialAuditorCompute (input : FinancialAuditorInput)
    (parse : String → Option FinancialResult) (llm : Except GoError String)
    (now : Nat) : ActivityRun FinancialResult :=
  match llm with
  | .error e => { result := .error e, cacheWrite := none }
  | .ok finalAnswer =>
      match parse finalAnswer with
      | none => { result := .error (.other "failed to parse LLM response"),
                  cacheWrite := none }
      | some parsed =>
          let r := { parsed with Ticker := input.Ticker, UpdatedAt := now }
          { result := .ok r, cacheWrite := some (financialCacheKey input.Ticker, r) }

/-- `FinancialAuditorActivity` from activities.go: check the cache; return the cached
artifact only when `Get` succeeded, the value is non-empty and it unmarshals; in every
other case fall through to `FinancialAuditorCompute`. -/
def FinancialAuditorActivity (input : FinancialAuditorInput)
    (cacheGet : Except GoError String) (parse : String → Option FinancialResult)
    (llm : Except GoError String) (now : Nat) : ActivityRun FinancialResult :=
  match cacheGet with
  | .ok cached =>
      if cached ≠ "" then
        match parse cached with
        | some r => { result := .ok r, cacheWrite := none }
        | none => FinancialAuditorCompute input parse llm now
      else FinancialAuditorCompute input parse llm now
  | .error _ => FinancialAuditorCompute input parse llm now

/-- The cache-miss tail of `ClinicalAssessorActivity` (LLM call, parse, overwrite of
the identifying fields from the input pipeline, cache `Set`). -/
def ClinicalAssessorCompute (input : ClinicalAssessorInput)
    (parse : String → Option ClinicalAssessment) (llm : Except GoError String) :
    ActivityRun ClinicalAssessment :=
  match llm with
  | .error e => { result := .error e, cacheWrite := none }
  | .ok finalAnswer =>
      match parse finalAnswer with
      | none => { result := .error (.other "failed to parse clinical assessment"),
                  cacheWrite := none }
      | some parsed =>
          let r := { parsed with
                       DrugName := input.Pipeline.DrugName
                       Target := input.Pipeline.Target
                       Indication := input.Pipeline.Indication
                       Phase := input.Pipeline.Phase }
          { result := .ok r,
            cacheWrite := some (clinicalCacheKey input.Ticker input.Pipeline.DrugName, r) }

/-- `ClinicalAssessorActivity` from activities.go: same cache-then-fall-through shape
as the financial auditor, keyed per drug. -/
def ClinicalAssessorActivity (input : ClinicalAssessorInput)
    (cacheGet : Except GoError String) (parse : String → Option ClinicalAssessment)
    (llm : Except GoError String) : ActivityRun ClinicalAssessment :=
  match cacheGet with
  | .ok cached =>
      if cached ≠ "" then
        match parse cached with
        | some r => { result := .ok r, cacheWrite := none }
        | none => ClinicalAssessorCompute input parse llm
      else ClinicalAssessorCompute input parse llm
  | .error _ => ClinicalAssessorCompute input parse llm

/-- `ValuationActuaryActivity` from activities.go: no cache; call the LLM with the
aggregates, unmarshal `response.FinalAnswer` into a `ValuationResult` and return it.
The parsed result is returned as-is — the function performs no bounds check on the
assumptions. -/
def ValuationActuaryActivity (input : ValuationActuaryInput)
    (llm : Except GoError String) (parse : String → Option ValuationResult) :
    Except GoError ValuationResult :=
  match llm with
  | .error e => .error e
  | .ok finalAnswer =>
      match parse finalAnswer with
      | none => .error (.other "failed to parse valuation result")
      | some r => .ok r

/-! ## Concrete sample artifacts (used to instantiate hypothesised theorems) -/

/-- A concrete Phase-3 pipeline. -/
def sampleDrugA : DrugPipeline :=
  { DrugName := "DrugA", Target := "PD-1", Indication := "NSCLC", Phase := "Phase3",
    Modality := "mAb", NCTID := "NCT00000001" }

/-- A concrete Phase-2 pipeline. -/
def sampleDrugB : DrugPipeline :=
  { DrugName := "DrugB", Target := "HER2", Indication := "BC", Phase := "Phase2",
    Modality := "ADC", NCTID := "" }

/-- A concrete clinical assessment for a pipeline. -/
def sampleClinical (p : DrugPipeline) : ClinicalAssessment :=
  { DrugName := p.DrugName, Target := p.Target, Indication := p.Indication,
    Phase := p.Phase, POSScore := 0.6, CompetitiveLandscape := "crowded",
    ClinicalAdvantage := "durable responses", Rating := "BiC",
    KeyCompetitors := ["X"], DataSources := ["ClinicalTrials.gov"] }

/-- A concrete market assessment for a pipeline. -/
def sampleMarket (p : DrugPipeline) : MarketAssessment :=
  { DrugName := p.DrugName, Target := p.Target, Indication := p.Indication,
    Domestic := { TAM := 1000, PenetrationRate := 0.2, PeakSales := 200,
                  Currency := "USD" },
    BDOutlook := { UpfrontPotential := 50, MilestonePotential := 300,
                   RoyaltyRate := 0.1, TargetRegion := "US", ComparableDeals := [] },
    RiskAdjustedRevenue := 120, Assumptions := ["epi data"] }

/-- A concrete per-pipeline analysis result. -/
def sampleAnalysis (p : DrugPipeline) : PipelineAnalysisResult :=
  { Pipeline := p, Clinical := sampleClinical p, Market := sampleMarket p }

/-- The phases named in the fixed phase → POS table. -/
def posTablePhases : List String :=
  ["Preclinical", "Phase1", "Phase1_2", "Phase2", "Phase2_3", "Phase3", "Approved"]

/-- Status written by the fan-out collection callback for an arrival. -/
def statusOf (out : Except GoError PipelineAnalysisResult) : String :=
  if exceptOk out then "completed" else "failed"

/-- What C3 asserts of one failing-clinical run: the subflow substitutes the default
assessment (table POS, rating `"Unknown"`) and still invokes the market activity with
that default as input. -/
def clinicalFailureSubstitution (input : PipelineAnalysisInput) (e : GoError)
    (marketOutcome : ClinicalAssessment → Except GoError MarketAssessment) : Prop :=
  ∃ t, PipelineAnalysisWorkflow input (.error e) marketOutcome = .ok t
    ∧ t.result.Clinical = defaultClinicalAssessment input.Pipeline
    ∧ t.result.Clinical.POSScore = getDefaultPOS input.Pipeline.Phase
    ∧ t.result.Clinical.Rating = "Unknown"
    ∧ t.marketInput.Clinical = defaultClinicalAssessment input.Pipeline

/-- What C1 asserts of the end of the fan-out phase: every drug is accounted for
exactly once (a collected `PipelineAnalysisResult` with status `"completed"`, or
status `"failed"`), and the success/failure counts together exhaust the pipeline
list, also after aggregation. -/
def fanOutConservation (ticker : String) (pipelines : List DrugPipeline)
    (arrivals : List Arrival) (s₀ : WorkflowState) : Prop :=
  (∀ a ∈ arrivals,
      (∃ r, a.2 = .ok r ∧ r ∈ (fanOutPhase pipelines arrivals s₀).2
        ∧ mapGet (fanOutPhase pipelines arrivals s₀).1.pipelineProgress a.1
            = some "completed")
    ∨ (exceptOk a.2 = false
        ∧ mapGet (fanOutPhase pipelines arrivals s₀).1.pipelineProgress a.1
            = some "failed"))
  ∧ (fanOutPhase pipelines arrivals s₀).2.length
      + countFailed (fanOutPhase pipelines arrivals s₀).1.pipelineProgress
      = pipelines.length
  ∧ (aggregateClinicalResults ticker (fanOutPhase pipelines arrivals s₀).2).Assessments.length
      + countFailed (fanOutPhase pipelines arrivals s₀).1.pipelineProgress
      = pipelines.length
  ∧ (aggregateMarketResults ticker (fanOutPhase pipelines arrivals s₀).2).Assessments.length
      + countFailed (fanOutPhase pipelines arrivals s₀).1.pipelineProgress
      = pipelines.length

/-- A concrete financial artifact. -/
def sampleFinancial : FinancialResult :=
  { Ticker := "BGNE", Metrics := ⟨500, 200, 30, 150, -180⟩, HealthScore := 72,
    RiskWarning := "cash runway below 36 months",
    SourceURL := "https://example.com/10k", UpdatedAt := 0 }

/-- A concrete valuation scenario. -/
def sampleScenario : ValuationScenario :=
  { Value1Y := 10, Value3Y := 20, Value5Y := 30, Value10Y := 40, Rationale := "base" }

/-- A concrete in-bounds valuation artifact. -/
def sampleValuation : ValuationResult :=
  { BullCase := sampleScenario, BaseCase := sampleScenario, BearCase := sampleScenario,
    Assumptions := { WACC := 0.12, TerminalGrowth := 0.025, AvgPOS := 0.3,
                     Methodology := "rNPV" } }

/-- A concrete report artifact. -/
def sampleReport : ReportResult :=
  { Ticker := "BGNE", MarkdownContent := "# Report", KeyRisks := ["clinical"],
    Recommendation := "HOLD", GeneratedAt := 0 }

/-- A concrete main-workflow input. -/
def sampleInput : WorkflowInput :=
  { Ticker := "BGNE", ReportPath := "/r/bgne.pdf", Options := [] }

/-- A deserialiser that accepts exactly one financial payload. -/
def sampleFinParse : String → Option FinancialResult :=
  fun s => if s = "FIN-JSON" then some sampleFinancial else none

/-- A deserialiser that accepts exactly one clinical payload. -/
def sampleClinParse : String → Option ClinicalAssessment :=
  fun s => if s = "CLN-JSON" then some (sampleClinical sampleDrugB) else none

/-- A `ValuationResult` whose assumptions violate the documented bounds
(`WACC = 0.5 ∉ [0.08, 0.20]`). -/
def badValuation : ValuationResult :=
  { BullCase := sampleScenario, BaseCase := sampleScenario, BearCase := sampleScenario,
    Assumptions := { WACC := 0.5, TerminalGrowth := 0.08, AvgPOS := 0.9,
                     Methodology := "rNPV" } }

/-- A deserialiser that parses one LLM answer into the out-of-bounds valuation. -/
def badValuationParse : String → Option ValuationResult :=
  fun s => if s = "VAL-JSON" then some badValuation else none

/-- A concrete valuation-actuary input. -/
def sampleValInput : ValuationActuaryInput :=
  { Ticker := "BGNE", Financial := some sampleFinancial, Clinical := none,
    Market := none }

/-- What C6 asserts of a corrupted cache entry: the run with an unparseable cached
value is identical to the run whose cache `Get` missed — both fall through to the
collaborator. -/
def corruptedCacheRecomputes (finput : FinancialAuditorInput) (cached : String)
    (parseF : String → Option FinancialResult) (llmF : Except GoError String)
    (now : Nat) (cinput : ClinicalAssessorInput) (ccached : String)
    (parseC : String → Option ClinicalAssessment) (llmC : Except GoError String) :
    Prop :=
  FinancialAuditorActivity finput (.ok cached) parseF llmF now
      = FinancialAuditorCompute finput parseF llmF now
  ∧ FinancialAuditorActivity finput (.ok cached) parseF llmF now
      = FinancialAuditorActivity finput (.error (.other "cache miss")) parseF llmF now
  ∧ ClinicalAssessorActivity cinput (.ok ccached) parseC llmC
      = ClinicalAssessorCompute cinput parseC llmC
  ∧ ClinicalAssessorActivity cinput (.ok ccached) parseC llmC
      = ClinicalAssessorActivity cinput (.error (.other "cache miss")) parseC llmC

/-- What C7 asserts of an aborting run: an error result, the Saga compensations
accumulated so far all executed, in order. -/
def valuationAbortRunsSaga (input : WorkflowInput) (env : WorkflowEnv)
    (runID : String) (now : Nat) (e : GoError) : Prop :=
  (BioValueWorkflow input env runID now).result = .error e
  ∧ (BioValueWorkflow input env runID now).sagaTrace
      = (mainPhaseA input env runID).saga.Execute
  ∧ runOrder ((mainPhaseA input env runID).saga.Execute)
      = (mainPhaseA input env runID).saga.steps.map CompensationStep.Name

/-- A run environment in which every collaborator succeeds and the pipeline scout
discovers no drugs. -/
def zeroDrugEnv : WorkflowEnv :=
  { phaseAFinancialFirst := true
    financialOutcome := .ok sampleFinancial
    pipelineOutcome := .ok { Ticker := "BGNE", Pipelines := [], DataAsOf := 100 }
    compensationOutcome := fun _ => .ok ()
    arrivals := []
    valuationOutcome := .ok sampleValuation
    reportOutcome := .ok sampleReport }

/-- A run environment in which every collaborator succeeds and the pipeline scout
discovers exactly one drug. -/
def oneDrugEnv : WorkflowEnv :=
  { zeroDrugEnv with
      pipelineOutcome := .ok { Ticker := "BGNE", Pipelines := [sampleDrugA],
                               DataAsOf := 100 }
      arrivals := [("DrugA", .ok (sampleAnalysis sampleDrugA))] }

/-- A run environment whose valuation child workflow fails with an L3 (fatal
configuration) error, with both phase-A activities having succeeded. -/
def valuationFatalEnv : WorkflowEnv :=
  { zeroDrugEnv with valuationOutcome := .error .configInvalid }

end BioValue

namespace BioValue

/-! ## Helper lemmas -/

theorem runOrder_append (t₁ t₂ : List SagaEvent) :
    runOrder (t₁ ++ t₂) = runOrder t₁ ++ runOrder t₂ := by
  simp [runOrder]

theorem notifyOrder_append (t₁ t₂ : List SagaEvent) :
    notifyOrder (t₁ ++ t₂) = notifyOrder t₁ ++ notifyOrder t₂ := by
  simp [notifyOrder]

theorem execute_cons (st : CompensationStep) (rest : List CompensationStep) :
    SagaCompensation.Execute ⟨st :: rest⟩
      = (SagaEvent.run st.Name ::
          (match st.Fn with
           | .ok _ => []
           | .error e => [SagaEvent.notifyFailure st.Name e]))
        ++ SagaCompensation.Execute ⟨rest⟩ := by
  simp [SagaCompensation.Execute]

theorem runOrder_execute (steps : List CompensationStep) :
    runOrder (SagaCompensation.Execute ⟨steps⟩) = steps.map CompensationStep.Name := by
  induction steps with
  | nil => rfl
  | cons st rest ih =>
      rw [execute_cons, runOrder_append, ih]
      cases h : st.Fn <;> simp [runOrder, h]

theorem notifyOrder_execute (steps : List CompensationStep) :
    notifyOrder (SagaCompensation.Execute ⟨steps⟩)
      = (steps.filter fun st => !exceptOk st.Fn).map CompensationStep.Name := by
  induction steps with
  | nil => rfl
  | cons st rest ih =>
      rw [execute_cons, notifyOrder_append, ih]
      cases h : st.Fn <;> simp [notifyOrder, h, exceptOk]

theorem mapGet_mapSet (m : List (String × String)) (k v d : String) :
    mapGet (mapSet m k v) d = if k = d then some v else mapGet m d := by
  induction m with
  | nil => by_cases h : k = d <;> simp [mapSet, mapGet, h]
  | cons p rest ih =>
      obtain ⟨k', v'⟩ := p
      by_cases h1 : k' = k
      · subst h1
        by_cases h2 : k' = d <;> simp [mapSet, mapGet, h2]
      · by_cases h2 : k' = d
        · have hkd : ¬k = d := fun hc => h1 (hc ▸ h2)
          have hdk : ¬d = k := fun hc => hkd hc.symm
          simp [mapSet, mapGet, h1, h2, hkd, hdk]
        · simp [mapSet, mapGet, h1, h2, ih]

theorem mem_mapSet (p : String × String) (m : List (String × String)) (k v : String) :
    p ∈ mapSet m k v → p = (k, v) ∨ p ∈ m := by
  induction m with
  | nil => simp [mapSet]
  | cons q rest ih =>
      obtain ⟨k', v'⟩ := q
      by_cases h : k' = k
      · subst h
        rw [show mapSet ((k', v') :: rest) k' v = (k', v) :: rest by simp [mapSet]]
        intro hp
        rcases List.mem_cons.mp hp with hp | hp
        · exact Or.inl hp
        · exact Or.inr (List.mem_cons_of_mem _ hp)
      · rw [show mapSet ((k', v') :: rest) k v = (k', v') :: mapSet rest k v by
              simp [mapSet, h]]
        intro hp
        rcases List.mem_cons.mp hp with hp | hp
        · exact Or.inr (by simp [hp])
        · rcases ih hp with h1 | h1
          · exact Or.inl h1
          · exact Or.inr (List.mem_cons_of_mem _ h1)

theorem mem_setAll (p : String × String) (keys : List String)
    (m : List (String × String)) (v : String) :
    p ∈ setAll m keys v → p.2 = v ∨ p ∈ m := by
  induction keys generalizing m with
  | nil => intro hp; exact Or.inr hp
  | cons k rest ih =>
      intro hp
      rcases ih (mapSet m k v) hp with h1 | h1
      · exact Or.inl h1
      · rcases mem_mapSet p m k v h1 with h2 | h2
        · exact Or.inl (by simp [h2])
        · exact Or.inr h2

theorem mapGet_setAll (keys : List String) (m : List (String × String)) (v d : String) :
    mapGet (setAll m keys v) d = if d ∈ keys then some v else mapGet m d := by
  induction keys generalizing m with
  | nil => simp [setAll]
  | cons k rest ih =>
      show mapGet (setAll (mapSet m k v) rest v) d = _
      rw [ih]
      by_cases h1 : d ∈ rest
      · simp [h1]
      · by_cases h2 : k = d
        · simp [h1, h2, mapGet_mapSet]
        · have h2' : ¬d = k := fun hc => h2 hc.symm
          simp [h1, h2, h2', mapGet_mapSet]

theorem countFailed_cons (p : String × String) (rest : List (String × String)) :
    countFailed (p :: rest)
      = countFailed rest + (if p.2 = "failed" then 1 else 0) := by
  by_cases h : p.2 = "failed" <;> simp [countFailed, h] <;> omega

theorem countFailed_eq_zero (m : List (String × String))
    (h : ∀ p ∈ m, p.2 ≠ "failed") : countFailed m = 0 := by
  induction m with
  | nil => rfl
  | cons p rest ih =>
      rw [countFailed_cons, ih fun q hq => h q (List.mem_cons_of_mem _ hq)]
      simp [h p (List.mem_cons_self p rest)]

theorem countFailed_mapSet_of_get (m : List (String × String)) (k w v : String)
    (hw : mapGet m k = some w) (hwne : w ≠ "failed") :
    countFailed (mapSet m k v) = countFailed m + (if v = "failed" then 1 else 0) := by
  induction m with
  | nil => simp [mapGet] at hw
  | cons p rest ih =>
      obtain ⟨k', v'⟩ := p
      by_cases h : k' = k
      · subst h
        have hv' : v' = w := by simpa [mapGet] using hw
        subst hv'
        rw [show mapSet ((k', v') :: rest) k' v = (k', v) :: rest by simp [mapSet]]
        rw [countFailed_cons, countFailed_cons]
        simp [hwne]
      · have hw' : mapGet rest k = some w := by simpa [mapGet, h] using hw
        rw [show mapSet ((k', v') :: rest) k v = (k', v') :: mapSet rest k v by
              simp [mapSet, h]]
        rw [countFailed_cons, countFailed_cons, ih hw']
        omega

theorem collectArrival_progress (acc : WorkflowState × List PipelineAnalysisResult)
    (a : Arrival) :
    (collectArrival acc a).1.pipelineProgress
      = mapSet acc.1.pipelineProgress a.1 (statusOf a.2) := by
  rcases a with ⟨d, out⟩
  cases out <;> simp [collectArrival, statusOf, exceptOk]

theorem collectArrival_snd (acc : WorkflowState × List PipelineAnalysisResult)
    (a : Arrival) :
    (collectArrival acc a).2 = acc.2 ++ (exceptValue a.2).toList := by
  rcases a with ⟨d, out⟩
  cases out <;> simp [collectArrival, exceptValue]

theorem collect_foldl_get_notmem (arrivals : List Arrival)
    (acc : WorkflowState × List PipelineAnalysisResult) (d : String)
    (hd : d ∉ arrivals.map Prod.fst) :
    mapGet (arrivals.foldl collectArrival acc).1.pipelineProgress d
      = mapGet acc.1.pipelineProgress d := by
  induction arrivals generalizing acc with
  | nil => rfl
  | cons a rest ih =>
      simp only [List.map_cons, List.mem_cons, not_or] at hd
      rw [List.foldl_cons, ih _ hd.2, collectArrival_progress, mapGet_mapSet,
          if_neg (fun hc : a.1 = d => hd.1 hc.symm)]

theorem filterMap_ok_length (arrivals : List Arrival) :
    (arrivals.filterMap fun a => exceptValue a.2).length
      + (arrivals.filter fun a => !exceptOk a.2).length = arrivals.length := by
  induction arrivals with
  | nil => rfl
  | cons a rest ih =>
      rcases a with ⟨d, out⟩
      cases out <;> simp [exceptValue, exceptOk] at ih ⊢ <;> omega

theorem collect_foldl_spec (arrivals : List Arrival) (s : WorkflowState)
    (an : List PipelineAnalysisResult)
    (hin : ∀ d ∈ arrivals.map Prod.fst, mapGet s.pipelineProgress d = some "in_progress")
    (hnd : (arrivals.map Prod.fst).Nodup) :
    (arrivals.foldl collectArrival (s, an)).2
        = an ++ arrivals.filterMap (fun a => exceptValue a.2)
    ∧ countFailed (arrivals.foldl collectArrival (s, an)).1.pipelineProgress
        = countFailed s.pipelineProgress
          + (arrivals.filter fun a => !exceptOk a.2).length
    ∧ ∀ a ∈ arrivals,
        mapGet (arrivals.foldl collectArrival (s, an)).1.pipelineProgress a.1
          = some (statusOf a.2) := by
  induction arrivals generalizing s an with
  | nil => exact ⟨by simp, by simp, by simp⟩
  | cons a rest ih =>
      have hka : a.1 ∈ (a :: rest).map Prod.fst := by simp
      have hnda : a.1 ∉ rest.map Prod.fst := by
        simp only [List.map_cons, List.nodup_cons] at hnd
        exact hnd.1
      have hndr : (rest.map Prod.fst).Nodup := by
        simp only [List.map_cons, List.nodup_cons] at hnd
        exact hnd.2
      -- the accumulator after processing the head arrival
      set acc' := collectArrival (s, an) a with hacc
      have hprog : acc'.1.pipelineProgress
          = mapSet s.pipelineProgress a.1 (statusOf a.2) := collectArrival_progress _ _
      have hsnd : acc'.2 = an ++ (exceptValue a.2).toList := collectArrival_snd _ _
      have hin' : ∀ d ∈ rest.map Prod.fst,
          mapGet acc'.1.pipelineProgress d = some "in_progress" := by
        intro d hdr
        rw [hprog, mapGet_mapSet]
        have hne : ¬a.1 = d := fun hc => hnda (hc ▸ hdr)
        rw [if_neg hne]
        exact hin d (by simp [hdr])
      have ihr := ih acc'.1 acc'.2 hin' hndr
      have heta : (acc'.1, acc'.2) = acc' := rfl
      rw [heta] at ihr
      have hfold : (a :: rest).foldl collectArrival (s, an)
          = rest.foldl collectArrival acc' := by rw [List.foldl_cons]
      refine ⟨?_, ?_, ?_⟩
      · rw [hfold, ihr.1, hsnd]
        rcases a with ⟨d, out⟩
        cases out <;> simp [exceptValue]
      · rw [hfold, ihr.2.1, hprog,
            countFailed_mapSet_of_get _ _ "in_progress" _ (hin a.1 hka) (by decide)]
        have hstat : (if statusOf a.2 = "failed" then 1 else 0)
            = ((a :: rest).filter fun x => !exceptOk x.2).length
              - (rest.filter fun x => !exceptOk x.2).length := by
          rcases a with ⟨d, out⟩
          cases out <;> simp [statusOf, exceptOk]
        rcases a with ⟨d, out⟩
        cases out <;> simp [statusOf, exceptOk] at hstat ⊢ <;> omega
      · intro b hb
        rcases List.mem_cons.mp hb with hb | hb
        · subst hb
          rw [hfold, collect_foldl_get_notmem rest acc' b.1 hnda, hprog, mapGet_mapSet,
              if_pos rfl]
        · rw [hfold]
          exact ihr.2.2 b hb

/-! ## Claim theorems -/

/-- C2: compensation steps added to a `SagaCompensation` in order a, b, c are executed
by `Execute` in the reverse order c, b, a; whatever each step's function returns,
every step is executed (a failing step triggers the `NotifyCompensationFailure`
activity and execution continues through all remaining steps, and exactly the failing
steps trigger it). -/
theorem saga_execute_lifo_and_continues (a b c : CompensationStep)
    (s : SagaCompensation) :
    runOrder (((NewSagaCompensation.AddCompensation a.Name a.Fn).AddCompensation
        b.Name b.Fn).AddCompensation c.Name c.Fn).Execute = [c.Name, b.Name, a.Name]
    ∧ runOrder s.Execute = s.steps.map CompensationStep.Name
    ∧ notifyOrder s.Execute
        = (s.steps.filter fun st => !exceptOk st.Fn).map CompensationStep.Name := by
  refine ⟨?_, ?_, ?_⟩
  · simpa [NewSagaCompensation, SagaCompensation.AddCompensation] using
      runOrder_execute [⟨c.Name, c.Fn⟩, ⟨b.Name, b.Fn⟩, ⟨a.Name, a.Fn⟩]
  · obtain ⟨steps⟩ := s
    exact runOrder_execute steps
  · obtain ⟨steps⟩ := s
    exact notifyOrder_execute steps

/-- C4: for every collected list of per-drug analyses, the aggregated `MarketResult`
has `total_risk_adjusted_revenue` equal to the left fold of addition over exactly
those analyses' `risk_adjusted_revenue` values in collection order (equivalently
their sum), and its `Assessments` list is the concatenation of the per-drug market
assessments. -/
theorem market_aggregation_total_and_concat (ticker : String)
    (analyses : List PipelineAnalysisResult) :
    (aggregateMarketResults ticker analyses).TotalRiskAdjustedRevenue
      = (analyses.map fun a => a.Market.RiskAdjustedRevenue).foldl (· + ·) 0
    ∧ (aggregateMarketResults ticker analyses).TotalRiskAdjustedRevenue
      = (analyses.map fun a => a.Market.RiskAdjustedRevenue).sum
    ∧ (aggregateMarketResults ticker analyses).Assessments
      = analyses.map (·.Market) := by
  refine ⟨?_, ?_, rfl⟩
  · simp [aggregateMarketResults, List.foldl_map]
  · simp [aggregateMarketResults, List.sum_eq_foldl, List.foldl_map]

/-- C8: the registered `progress` query handler returns, in every workflow state, the
record carrying `current_agent`, `completed_steps`, `total_steps`, the progress
percentage and the per-drug `pipeline_progress` map, with
`total_steps = 4 + 2 × (number of drugs in the map)`, and leaves the workflow state
unchanged. -/
theorem progress_query_shape_and_pure (s : WorkflowState) :
    (progressQuery s).2 = s
    ∧ (progressQuery s).1.TotalSteps = 4 + 2 * s.pipelineProgress.length
    ∧ (progressQuery s).1.CurrentAgent = s.currentAgent
    ∧ (progressQuery s).1.CompletedSteps = s.completedSteps
    ∧ (progressQuery s).1.PipelineProgress = s.pipelineProgress
    ∧ (progressQuery s).1.Progress
        = (s.completedSteps.length : ℚ)
            / ((4 + s.pipelineProgress.length * 2 : Nat) : ℚ) * 100 := by
  refine ⟨rfl, ?_, rfl, rfl, rfl, rfl⟩
  simp [progressQuery]
  ring

/-- C9: `PipelineAnalysisWorkflow` never returns an error: for every input and every
combination of clinical and market activity outcomes it returns a result containing
the input pipeline, the clinical assessment (or its default substitute), and the
market assessment (or its default substitute), paired with a nil error. -/
theorem pipeline_analysis_never_errors (input : PipelineAnalysisInput)
    (clinicalOutcome : Except GoError ClinicalAssessment)
    (marketOutcome : ClinicalAssessment → Except GoError MarketAssessment) :
    ∃ t, PipelineAnalysisWorkflow input clinicalOutcome marketOutcome = .ok t
      ∧ t.result.Pipeline = input.Pipeline
      ∧ t.result.Clinical
          = (match clinicalOutcome with
             | .ok r => r
             | .error _ => defaultClinicalAssessment input.Pipeline)
      ∧ t.marketInput = { Ticker := input.Ticker, Pipeline := input.Pipeline,
                          Clinical := t.result.Clinical }
      ∧ t.result.Market
          = (match marketOutcome t.result.Clinical with
             | .ok r => r
             | .error _ => defaultMarketAssessment input.Pipeline) := by
  exact ⟨_, rfl, rfl, rfl, rfl, rfl⟩

/-- C3: when the clinical-assessment activity of `PipelineAnalysisWorkflow` fails, the
subflow substitutes the default `ClinicalAssessment` whose `pos_score` is the fixed
phase → POS table value (Preclinical 0.05, Phase1 0.10, Phase1_2 0.15, Phase2 0.30,
Phase2_3 0.50, Phase3 0.60, Approved 1.0, any other phase 0.20) and whose rating is
`"Unknown"`, and still invokes the market-analysis activity with that default
assessment as its input. -/
theorem clinical_failure_default_substitution (input : PipelineAnalysisInput)
    (e : GoError)
    (marketOutcome : ClinicalAssessment → Except GoError MarketAssessment) :
    clinicalFailureSubstitution input e marketOutcome
    ∧ getDefaultPOS "Preclinical" = 0.05 ∧ getDefaultPOS "Phase1" = 0.10
    ∧ getDefaultPOS "Phase1_2" = 0.15 ∧ getDefaultPOS "Phase2" = 0.30
    ∧ getDefaultPOS "Phase2_3" = 0.50 ∧ getDefaultPOS "Phase3" = 0.60
    ∧ getDefaultPOS "Approved" = 1.0
    ∧ ∀ ph, ph ∉ posTablePhases → getDefaultPOS ph = 0.20 := by
  refine ⟨⟨_, rfl, rfl, rfl, rfl, rfl⟩, rfl, rfl, rfl, rfl, rfl, rfl, rfl, ?_⟩
  intro ph hph
  unfold getDefaultPOS
  split <;> simp_all [posTablePhases]

/-- C1: at the end of the fan-out phase of the main workflow, every drug of the
`PipelineResult` is accounted for exactly once — either its `PipelineAnalysisResult`
was collected and `pipeline_progress[drug] = "completed"`, or
`pipeline_progress[drug] = "failed"` — and consequently the number of collected
analyses (hence of `ClinicalResult.Assessments` and of `MarketResult.Assessments`)
plus the number of failed drugs equals the number of `PipelineResult.Pipelines`.
Hypotheses: the fan-out starts with an empty progress map, the resolved child futures
are exactly the launched drugs (in any event order), and drug names are distinct
(they key both the progress map and the child futures). -/
theorem fanout_accounts_every_drug_once (ticker : String)
    (pipelines : List DrugPipeline) (arrivals : List Arrival) (s₀ : WorkflowState)
    (hs : s₀.pipelineProgress = [])
    (hperm : (arrivals.map Prod.fst).Perm (pipelines.map (·.DrugName)))
    (hnd : (pipelines.map (·.DrugName)).Nodup) :
    fanOutConservation ticker pipelines arrivals s₀ := by
  have hnda : (arrivals.map Prod.fst).Nodup := hperm.nodup_iff.mpr hnd
  -- the progress map right before the collection loop
  set names := pipelines.map (·.DrugName) with hnames
  set m₀ := setAll (setAll s₀.pipelineProgress names "pending") names "in_progress"
    with hm₀
  set s₁ : WorkflowState :=
    { s₀ with currentAgent := "PipelineAnalysis", pipelineProgress := m₀ } with hs₁
  have hfan : fanOutPhase pipelines arrivals s₀ = arrivals.foldl collectArrival (s₁, []) := by
    rfl
  have hget₀ : ∀ d ∈ names, mapGet m₀ d = some "in_progress" := by
    intro d hdn
    rw [hm₀, mapGet_setAll, if_pos hdn]
  have hin : ∀ d ∈ arrivals.map Prod.fst,
      mapGet s₁.pipelineProgress d = some "in_progress" := by
    intro d hda
    exact hget₀ d (hperm.mem_iff.mp hda)
  have hzero : countFailed m₀ = 0 := by
    apply countFailed_eq_zero
    intro p hp
    rcases mem_setAll p names _ "in_progress" hp with h1 | h1
    · simp [h1]
    · rcases mem_setAll p names _ "pending" h1 with h2 | h2
      · simp [h2]
      · rw [hs] at h2
        simp at h2
  have hspec := collect_foldl_spec arrivals s₁ [] hin hnda
  have hlen : arrivals.length = pipelines.length := by
    have h1 := hperm.length_eq
    rw [hnames] at h1
    simpa using h1
  have hcount : (fanOutPhase pipelines arrivals s₀).2.length
      + countFailed (fanOutPhase pipelines arrivals s₀).1.pipelineProgress
      = pipelines.length := by
    rw [hfan, hspec.1, hspec.2.1]
    show (List.filterMap _ arrivals).length + (countFailed s₁.pipelineProgress + _) = _
    have : countFailed s₁.pipelineProgress = 0 := hzero
    rw [this, Nat.zero_add, filterMap_ok_length, hlen]
  refine ⟨?_, hcount, ?_, ?_⟩
  · intro a ha
    cases hout : a.2 with
    | ok r =>
        refine Or.inl ⟨r, rfl, ?_, ?_⟩
        · rw [hfan, hspec.1]
          refine List.mem_filterMap.mpr ⟨a, ha, ?_⟩
          simp [exceptValue, hout]
        · rw [hfan, hspec.2.2 a ha, hout]
          rfl
    | error e =>
        refine Or.inr ⟨by simp [exceptOk, hout], ?_⟩
        rw [hfan, hspec.2.2 a ha, hout]
        rfl
  · simpa [aggregateClinicalResults] using hcount
  · simpa [aggregateMarketResults] using hcount

/-- Witness for C1: a two-drug fan-out where DrugA's child workflow succeeds and
DrugB's fails. -/
theorem fanout_accounts_every_drug_once_witness :
    (({ currentAgent := "", completedSteps := [], pipelineProgress := [] }
        : WorkflowState).pipelineProgress = [])
    ∧ (([("DrugA", Except.ok (sampleAnalysis sampleDrugA)),
         ("DrugB", Except.error GoError.deadlineExceeded)] : List Arrival).map
          Prod.fst).Perm ([sampleDrugA, sampleDrugB].map (·.DrugName))
    ∧ ([sampleDrugA, sampleDrugB].map (·.DrugName)).Nodup
    ∧ fanOutConservation "BGNE" [sampleDrugA, sampleDrugB]
        [("DrugA", Except.ok (sampleAnalysis sampleDrugA)),
         ("DrugB", Except.error GoError.deadlineExceeded)]
        { currentAgent := "", completedSteps := [], pipelineProgress := [] } :=
  ⟨rfl, List.Perm.refl _, by decide,
   fanout_accounts_every_drug_once "BGNE" [sampleDrugA, sampleDrugB]
     [("DrugA", Except.ok (sampleAnalysis sampleDrugA)),
      ("DrugB", Except.error GoError.deadlineExceeded)]
     { currentAgent := "", completedSteps := [], pipelineProgress := [] }
     rfl (List.Perm.refl _) (by decide)⟩

/-- Witness for C3 at a concrete failing run: a Phase-2 drug whose clinical activity
failed with a timeout, and a market activity that succeeds. -/
theorem clinical_failure_default_substitution_witness :
    ("Discovery" ∉ posTablePhases)
    ∧ clinicalFailureSubstitution
        { Ticker := "BGNE", Pipeline := sampleDrugB } GoError.deadlineExceeded
        (fun _ => .ok (sampleMarket sampleDrugB))
    ∧ getDefaultPOS "Discovery" = 0.20 :=
  ⟨by decide,
   (clinical_failure_default_substitution
      { Ticker := "BGNE", Pipeline := sampleDrugB } GoError.deadlineExceeded
      (fun _ => .ok (sampleMarket sampleDrugB))).1,
   (clinical_failure_default_substitution
      { Ticker := "BGNE", Pipeline := sampleDrugB } GoError.deadlineExceeded
      (fun _ => .ok (sampleMarket sampleDrugB))).2.2.2.2.2.2.2.2
     "Discovery" (by decide)⟩

/-- C6: for the cacheable activities, a cached value that fails to deserialise into
the expected result type is treated exactly like a cache miss: the activity falls
through to the collaborator, recomputes, and (on collaborator success) re-caches and
returns the recomputed artifact — it neither returns the corrupted value nor fails
because of it. -/
theorem corrupted_cache_treated_as_miss (finput : FinancialAuditorInput)
    (cached : String) (parseF : String → Option FinancialResult)
    (llmF : Except GoError String) (now : Nat) (cinput : ClinicalAssessorInput)
    (ccached : String) (parseC : String → Option ClinicalAssessment)
    (llmC : Except GoError String)
    (hcne : cached ≠ "") (hpc : parseF cached = none)
    (hcne' : ccached ≠ "") (hpc' : parseC ccached = none) :
    corruptedCacheRecomputes finput cached parseF llmF now cinput ccached parseC llmC
    ∧ (∀ finalAnswer parsed, llmF = .ok finalAnswer → parseF finalAnswer = some parsed →
        FinancialAuditorActivity finput (.ok cached) parseF llmF now
          = { result := .ok { parsed with Ticker := finput.Ticker, UpdatedAt := now }
              cacheWrite := some (financialCacheKey finput.Ticker,
                { parsed with Ticker := finput.Ticker, UpdatedAt := now }) }) := by
  constructor
  · refine ⟨?_, ?_, ?_, ?_⟩ <;>
      simp [FinancialAuditorActivity, ClinicalAssessorActivity, hcne, hpc, hcne', hpc']
  · intro finalAnswer parsed hllm hparse
    subst hllm
    simp [FinancialAuditorActivity, FinancialAuditorCompute, hcne, hpc, hparse]

/-- Witness for C6: a concrete corrupted cache entry for each activity, with an LLM
collaborator that succeeds with a parseable answer. -/
theorem corrupted_cache_treated_as_miss_witness :
    ("corrupt" ≠ "") ∧ sampleFinParse "corrupt" = none
    ∧ ("bad" ≠ "") ∧ sampleClinParse "bad" = none
    ∧ corruptedCacheRecomputes { Ticker := "BGNE", ReportPath := "/r/bgne.pdf" }
        "corrupt" sampleFinParse (.ok "FIN-JSON") 42
        { Ticker := "BGNE", Pipeline := sampleDrugB } "bad" sampleClinParse
        (.ok "CLN-JSON") :=
  ⟨by decide, by decide, by decide, by decide,
   (corrupted_cache_treated_as_miss { Ticker := "BGNE", ReportPath := "/r/bgne.pdf" }
      "corrupt" sampleFinParse (.ok "FIN-JSON") 42
      { Ticker := "BGNE", Pipeline := sampleDrugB } "bad" sampleClinParse
      (.ok "CLN-JSON") (by decide) (by decide) (by decide) (by decide)).1⟩

/-- C7: when the valuation child workflow returns an error whose classified severity
is `L2Intervention` or higher, `BioValueWorkflow` executes every Saga compensation
accumulated so far (in LIFO registration order) and aborts, returning an error and no
`WorkflowOutput`. -/
theorem valuation_l2_error_runs_saga_and_aborts (input : WorkflowInput)
    (env : WorkflowEnv) (runID : String) (now : Nat) (e : GoError)
    (hv : env.valuationOutcome = .error e)
    (hlvl : L2Intervention ≤ (ClassifyError e).Level) :
    valuationAbortRunsSaga input env runID now e := by
  refine ⟨?_, ?_, ?_⟩
  · simp [BioValueWorkflow, ValuationWorkflow, hv, hlvl]
  · simp [BioValueWorkflow, ValuationWorkflow, hv, hlvl]
  · exact runOrder_execute (mainPhaseA input env runID).saga.steps

/-- Witness for C7: a run whose valuation child fails with the fatal-configuration
error (classified L3 ≥ L2). -/
theorem valuation_l2_error_runs_saga_and_aborts_witness :
    valuationFatalEnv.valuationOutcome = .error .configInvalid
    ∧ L2Intervention ≤ (ClassifyError .configInvalid).Level
    ∧ valuationAbortRunsSaga sampleInput valuationFatalEnv "run-1" 1000
        .configInvalid :=
  ⟨rfl, by decide,
   valuation_l2_error_runs_saga_and_aborts sampleInput valuationFatalEnv "run-1" 1000
     .configInvalid rfl (by decide)⟩

/-- C10: the progress percentage reported by the `progress` query is not bounded by
100.  In the zero-drug all-success run the workflow completes six steps
(FinancialAuditor, PipelineScout, ClinicalAggregation, MarketAggregation,
ValuationActuary, ReportGenerator) while `total_steps = 4 + 2·0 = 4`, so the query
reports 150; in the one-drug all-success run it completes `6 + 1` steps against
`total_steps = 6` and again exceeds 100. -/
theorem progress_can_exceed_hundred :
    (BioValueWorkflow sampleInput zeroDrugEnv "run-1" 1000).state.completedSteps
      = ["FinancialAuditor", "PipelineScout", "ClinicalAggregation",
         "MarketAggregation", "ValuationActuary", "ReportGenerator"]
    ∧ (progressQuery (BioValueWorkflow sampleInput zeroDrugEnv "run-1" 1000).state).1.TotalSteps
      = 4
    ∧ (progressQuery (BioValueWorkflow sampleInput zeroDrugEnv "run-1" 1000).state).1.Progress
      = 150
    ∧ (100 : ℚ)
      < (progressQuery (BioValueWorkflow sampleInput zeroDrugEnv "run-1" 1000).state).1.Progress
    ∧ (BioValueWorkflow sampleInput oneDrugEnv "run-1" 1000).state.completedSteps.length
      = 6 + 1
    ∧ (progressQuery (BioValueWorkflow sampleInput oneDrugEnv "run-1" 1000).state).1.TotalSteps
      = 4 + 2 * 1
    ∧ (100 : ℚ)
      < (progressQuery (BioValueWorkflow sampleInput oneDrugEnv "run-1" 1000).state).1.Progress := by
  have h0steps : (BioValueWorkflow sampleInput zeroDrugEnv "run-1" 1000).state.completedSteps
      = ["FinancialAuditor", "PipelineScout", "ClinicalAggregation",
         "MarketAggregation", "ValuationActuary", "ReportGenerator"] := by decide
  have h0map : (BioValueWorkflow sampleInput zeroDrugEnv "run-1" 1000).state.pipelineProgress
      = [] := by decide
  have h1steps : (BioValueWorkflow sampleInput oneDrugEnv "run-1" 1000).state.completedSteps
      = ["FinancialAuditor", "PipelineScout", "PipelineAnalysis:DrugA",
         "ClinicalAggregation", "MarketAggregation", "ValuationActuary",
         "ReportGenerator"] := by decide
  have h1map : (BioValueWorkflow sampleInput oneDrugEnv "run-1" 1000).state.pipelineProgress
      = [("DrugA", "completed")] := by decide
  refine ⟨h0steps, ?_, ?_, ?_, ?_, ?_, ?_⟩
  · simp [progressQuery, h0map]
  · simp [progressQuery, h0steps, h0map]
    norm_num
  · simp [progressQuery, h0steps, h0map]
    norm_num
  · simp [h1steps]
  · simp [progressQuery, h1map]
  · simp [progressQuery, h1steps, h1map]
    norm_num

/-- C5 (evaluation at the failing input): `ValuationActuaryActivity` performs no
bounds validation — an LLM answer that parses to assumptions with `WACC = 0.5`,
outside the documented `[0.08, 0.20]` range, is returned as a successful
`ValuationResult`, not rejected or classified as an error. -/
theorem valuation_bounds_not_enforced :
    ValuationActuaryActivity sampleValInput (.ok "VAL-JSON") badValuationParse
      = .ok badValuation
    ∧ badValuation.Assumptions.WACC = 0.5
    ∧ ¬(0.08 ≤ badValuation.Assumptions.WACC
        ∧ badValuation.Assumptions.WACC ≤ 0.20) := by
  refine ⟨rfl, rfl, ?_⟩
  rw [show badValuation.Assumptions.WACC = 0.5 from rfl]
  norm_num

end BioValue
